import Mathlib

/-!
Shallow embedding of the per-word processing pipeline of simply-lingo
(src/main.go).  The program reads spreadsheet rows, and for each row with
at least two cells it: queries the Yandex dictionary service, extracts the
first translation of the first definition, checks whether the audio file
`audio/<word>.mp3` exists, synthesizes it via ElevenLabs when the stat
error is a not-exist error, and writes one CSV row.

External effects (HTTP calls, os.Stat, file writes) are oracle-ized: a
`WordWorld` records the outcome every external call would have for one
word, and the pipeline is a pure function from the entry and its world to
the list of observable events (translation request, synthesis request,
emitted row) plus the list of audio paths created.
-/

namespace SimplyLingo

/-- `Synonym` from main.go: `{ Text string }`. -/
structure Synonym where
  Text : String
deriving DecidableEq, Repr

/-- `Meaning` from main.go: `{ Text string }`. -/
structure Meaning where
  Text : String
deriving DecidableEq, Repr

mutual
/-- `Translation` from main.go: `{ Text, Pos string; Syn []Synonym;
Mean []Meaning; Ex []Example }`. -/
inductive Translation : Type where
  | mk (Text Pos : String) (Syn : List Synonym) (Mean : List Meaning)
       (Ex : List Example) : Translation

/-- `Example` from main.go: `{ Text string; Tr []Translation }`. -/
inductive Example : Type where
  | mk (Text : String) (Tr : List Translation) : Example
end

/-- Accessor for the `Text` field of `Translation`. -/
def Translation.Text : Translation → String
  | .mk t _ _ _ _ => t

/-- `Definition` from main.go: `{ Text, Pos string; Tr []Translation }`. -/
structure Definition where
  Text : String
  Pos : String
  Tr : List Translation

/-- `DicResult` from main.go.  The `Head` field has Go type `any`, is never
read by the program, and is therefore not modelled. -/
structure DicResult where
  Def : List Definition

/-- Outcome of parsing the dictionary response body with `json.Unmarshal`:
either the body fails to parse, or it parses to a `DicResult`. -/
inductive BodyParse where
  | malformed
  | parsed (result : DicResult)

/-- Outcome of the external calls of the translation stage for one word:
`http.Get` fails (`transportError`), `io.ReadAll` fails (`readError`), or a
response arrives with an HTTP status code and a body. -/
inductive TranslationOutcome where
  | transportError
  | readError
  | response (status : Nat) (body : BodyParse)

/-- Outcome of `os.Stat(audioPath)`: the file is found (nil error),
the error satisfies `os.IsNotExist`, or some other error occurred. -/
inductive StatOutcome where
  | statFound
  | statNotExist
  | statOtherError
deriving DecidableEq, Repr

/-- Outcome of writing the synthesized audio: `os.Create` fails,
`io.Copy` fails (after the file was created), or both succeed. -/
inductive FileWriteOutcome where
  | createError
  | copyError
  | success

/-- Outcome of the external calls of the synthesis stage for one word:
`json.Marshal` fails, `http.NewRequest` fails, `client.Do` fails, or an
HTTP response arrives with a status code, followed by the file write. -/
inductive SynthOutcome where
  | marshalError
  | newRequestError
  | doError
  | httpResponse (status : Nat) (write : FileWriteOutcome)

/-- The outcomes of all external calls the pipeline would observe while
processing one word. -/
structure WordWorld where
  transl : TranslationOutcome
  stat : StatOutcome
  synth : SynthOutcome

/-- The row written by `csvWriter.Write([]string{word, exampleSentence,
soundField, russian})`.  The Go locals map to the fields in order; the
spec calls `exampleSentence` the `example` field. -/
structure OutputRow where
  word : String
  exampleSentence : String
  soundReference : String
  translation : String
deriving DecidableEq, Repr

/-- Observable actions of the pipeline: sending the dictionary lookup,
sending the synthesis request (`client.Do`), and emitting one CSV row. -/
inductive Event where
  | translationRequest (word : String)
  | synthesisRequest (word : String)
  | emitRow (row : OutputRow)
deriving DecidableEq, Repr

/-- `audioDir := "audio"` (main.go line 117). -/
def audioDir : String := "audio"

/-- `audioFilename := fmt.Sprintf("%s.mp3", word)` (main.go line 178). -/
def audioFilename (word : String) : String := word ++ ".mp3"

/-- `audioPath := filepath.Join(audioDir, audioFilename)` (main.go line
179); on the target platform this is `audioDir ++ "/" ++ audioFilename`
since both components are nonempty and clean. -/
def audioPath (word : String) : String := audioDir ++ "/" ++ audioFilename word

/-- `soundField := fmt.Sprintf("[sound:%s]", audioFilename)` (main.go
line 253). -/
def soundField (word : String) : String := "[sound:" ++ audioFilename word ++ "]"

/-- Lines 172-175 of main.go: `russian := ""` then
`if len(result.Def) > 0 && len(result.Def[0].Tr) > 0
 { russian = result.Def[0].Tr[0].Text }`. -/
def extractTranslation (result : DicResult) : String :=
  match result.Def with
  | [] => ""
  | d :: _ =>
    match d.Tr with
    | [] => ""
    | t :: _ => t.Text

/-- The body of the per-row loop of `main` (lines 141-264) for a row with
at least two cells, with `word` and `defn` the first two cell strings.
Every `continue` in the Go source becomes returning the events gathered so
far; the second component is the list of audio paths created on disk
(`os.Create` succeeds in both the `copyError` and `success` cases). -/
def processWord (word defn : String) (w : WordWorld) : List Event × List String :=
  match w.transl with
  | .transportError => ([.translationRequest word], [])
  | .readError => ([.translationRequest word], [])
  | .response _ .malformed => ([.translationRequest word], [])
  | .response _ (.parsed result) =>
    let russian := extractTranslation result
    let row : OutputRow := ⟨word, defn, soundField word, russian⟩
    match w.stat with
    | .statNotExist =>
      match w.synth with
      | .marshalError => ([.translationRequest word], [])
      | .newRequestError => ([.translationRequest word], [])
      | .doError => ([.translationRequest word, .synthesisRequest word], [])
      | .httpResponse status write =>
        if status ≠ 200 then
          ([.translationRequest word, .synthesisRequest word], [])
        else
          match write with
          | .createError => ([.translationRequest word, .synthesisRequest word], [])
          | .copyError =>
            ([.translationRequest word, .synthesisRequest word], [audioPath word])
          | .success =>
            ([.translationRequest word, .synthesisRequest word, .emitRow row],
             [audioPath word])
    | .statFound => ([.translationRequest word, .emitRow row], [])
    | .statOtherError => ([.translationRequest word, .emitRow row], [])

/-- One iteration of the row loop (lines 131-139): rows with fewer than
two cells are skipped before anything else happens (`continue`), otherwise
the first two cells become the word and the definition. -/
def processRow (cells : List String) (w : WordWorld) : List Event × List String :=
  match cells with
  | c0 :: c1 :: _ => processWord c0 c1 w
  | _ => ([], [])

/-- The whole loop of `main` over the rows of the sheet, each paired with the
outcomes of its external calls: events and created paths accumulate in
order. -/
def runPipeline : List (List String × WordWorld) → List Event × List String
  | [] => ([], [])
  | (cells, w) :: rest =>
    (((processRow cells w).1 ++ (runPipeline rest).1),
     ((processRow cells w).2 ++ (runPipeline rest).2))

/-- Projects the row out of an `emitRow` event. -/
def emitOf : Event → Option OutputRow
  | .emitRow row => some row
  | _ => none

/-- The rows emitted by a run, in emission order. -/
def emittedRows (entries : List (List String × WordWorld)) : List OutputRow :=
  (runPipeline entries).1.filterMap emitOf

/-- The rows one entry emits (the code emits at most one). -/
def rowsOf (cells : List String) (w : WordWorld) : List OutputRow :=
  (processRow cells w).1.filterMap emitOf

/-- The translation stage fails for this word: transport failure, read
failure, or unparsable body — the cases line 151, 158 and 165 of main.go
`continue` on. -/
def translationFailed (w : WordWorld) : Bool :=
  match w.transl with
  | .transportError => true
  | .readError => true
  | .response _ .malformed => true
  | .response _ (.parsed _) => false

/-- The synthesis stage fails for this word: the cache check reports
not-exist and one of the synthesis steps fails (lines 194-243). -/
def synthesisFailed (w : WordWorld) : Bool :=
  match w.stat with
  | .statNotExist =>
    match w.synth with
    | .marshalError => true
    | .newRequestError => true
    | .doError => true
    | .httpResponse status write =>
      if status ≠ 200 then true
      else
        match write with
        | .createError => true
        | .copyError => true
        | .success => false
  | _ => false

/-- The audio stage completes without a skip for this word: either the
stat branch does not take the synthesis path, or synthesis returns status
200 and the file write succeeds. -/
def audioStageOk (w : WordWorld) : Bool :=
  match w.stat with
  | .statNotExist =>
    match w.synth with
    | .httpResponse status .success => status == 200
    | _ => false
  | _ => true

/-- Whether an event is the sending of a synthesis request. -/
def isSynthRequest : Event → Bool
  | .synthesisRequest _ => true
  | _ => false

/-- Whether an event is compatible with the store: an emitted row must name
an audio path present in `store`; other events hold trivially. -/
def eventFileOk (store : List String) : Event → Bool
  | .emitRow row => decide (audioPath row.word ∈ store)
  | _ => true

/-- For every entry in turn: each row the entry emits names an audio path
present in the store as it stands right after that entry.  Within one
entry the emit is the last event and nothing is written after it, so this
is the store at the moment of emission. -/
def rowsHaveFiles (store : List String) : List (List String × WordWorld) → Bool
  | [] => true
  | (cells, w) :: rest =>
    (processRow cells w).1.all (eventFileOk (store ++ (processRow cells w).2))
    && rowsHaveFiles (store ++ (processRow cells w).2) rest

/-- The stat oracle is consistent with the store at the turn of each entry
and never fails with an error other than not-exist: a `statFound` answer
means the file is really present, and `statOtherError` does not occur. -/
def statAccurate (store : List String) : List (List String × WordWorld) → Bool
  | [] => true
  | (cells, w) :: rest =>
    (match cells with
     | c0 :: _ :: _ =>
       decide ((w.stat = .statFound → audioPath c0 ∈ store) ∧
         w.stat ≠ .statOtherError)
     | _ => true)
    && statAccurate (store ++ (processRow cells w).2) rest

/-- Formalizes the claim wording "at least two non-empty cells" (spec-side
notion, compared against the source condition `len(row.Cells) >= 2`): the
number of cells holding a nonempty string. -/
def specNonEmptyCells (cells : List String) : Nat :=
  (cells.filter (fun c => c != "")).length

/-- A dictionary response carrying no definitions: `{"def": []}`. -/
def dicEmpty : DicResult := ⟨[]⟩

/-- A world where every external call succeeds, the dictionary returns no
definitions, and the audio file is already cached. -/
def wOk : WordWorld :=
  ⟨.response 200 (.parsed dicEmpty), .statFound, .httpResponse 200 .success⟩

/-- A world where every external call succeeds, the audio file is not yet
cached, and synthesis succeeds. -/
def wSynth : WordWorld :=
  ⟨.response 200 (.parsed dicEmpty), .statNotExist, .httpResponse 200 .success⟩

/-- A world where the translation transport fails (`http.Get` error). -/
def wFailT : WordWorld :=
  ⟨.transportError, .statFound, .httpResponse 200 .success⟩

/-- A world where the dictionary responds with a non-success status whose
body still parses (an empty definitions object), cache misses, and
synthesis succeeds. -/
def wBadStatus : WordWorld :=
  ⟨.response 403 (.parsed dicEmpty), .statNotExist, .httpResponse 200 .success⟩

/-- A world where `os.Stat` fails with an error other than not-exist. -/
def wStatErr : WordWorld :=
  ⟨.response 200 (.parsed dicEmpty), .statOtherError, .httpResponse 200 .success⟩

/-- A world where the dictionary body does not parse as JSON. -/
def wMalformed : WordWorld :=
  ⟨.response 200 .malformed, .statNotExist, .httpResponse 200 .success⟩

/-- A world with a given parsed response, a cache hit, and successful
synthesis. -/
def wordWorldOf (r : DicResult) : WordWorld :=
  ⟨.response 200 (.parsed r), .statFound, .httpResponse 200 .success⟩

/-- A dictionary response with one definition whose first translation text
is привет. -/
def dicHello : DicResult :=
  ⟨[⟨"hello", "noun", [Translation.mk "привет" "noun" [] [] []]⟩]⟩

/-- Events and created paths of a run distribute over list append: the
loop handles each row independently, in order. -/
theorem runPipeline_append (l1 l2 : List (List String × WordWorld)) :
    runPipeline (l1 ++ l2) =
      ((runPipeline l1).1 ++ (runPipeline l2).1,
       (runPipeline l1).2 ++ (runPipeline l2).2) := by
  induction l1 with
  | nil => simp [runPipeline]
  | cons e rest ih =>
    obtain ⟨cells, w⟩ := e
    simp [runPipeline, ih, List.append_assoc]

/-- Every processed word first sends the translation request. -/
theorem processWord_events_head (word defn : String) (w : WordWorld) :
    ∃ tail, (processWord word defn w).1 = Event.translationRequest word :: tail := by
  obtain ⟨t, st, sy⟩ := w
  cases t with
  | transportError => exact ⟨_, rfl⟩
  | readError => exact ⟨_, rfl⟩
  | response s b =>
    cases b with
    | malformed => exact ⟨_, rfl⟩
    | parsed r =>
      cases st with
      | statFound => exact ⟨_, rfl⟩
      | statOtherError => exact ⟨_, rfl⟩
      | statNotExist =>
        cases sy with
        | marshalError => exact ⟨_, rfl⟩
        | newRequestError => exact ⟨_, rfl⟩
        | doError => exact ⟨_, rfl⟩
        | httpResponse status write =>
          by_cases hst : status = 200
          · subst hst
            cases write with
            | createError => exact ⟨_, rfl⟩
            | copyError => exact ⟨_, rfl⟩
            | success => exact ⟨_, rfl⟩
          · exact ⟨[Event.synthesisRequest word], by simp [processWord, hst]⟩

/-- When the translation body parses, a row is among the emitted events
of the processed word exactly when the audio stage completed and the row
is the one the code builds from the word, the definition and the parsed
result. -/
theorem emit_mem_processWord (word defn : String) (s : Nat) (r : DicResult)
    (w : WordWorld) (ht : w.transl = .response s (.parsed r)) (row : OutputRow) :
    Event.emitRow row ∈ (processWord word defn w).1 ↔
      (audioStageOk w = true ∧
        row = ⟨word, defn, soundField word, extractTranslation r⟩) := by
  obtain ⟨t, st, sy⟩ := w
  simp only at ht
  subst ht
  cases st with
  | statFound => simp [processWord, audioStageOk]
  | statOtherError => simp [processWord, audioStageOk]
  | statNotExist =>
    cases sy with
    | marshalError => simp [processWord, audioStageOk]
    | newRequestError => simp [processWord, audioStageOk]
    | doError => simp [processWord, audioStageOk]
    | httpResponse status write =>
      by_cases hst : status = 200
      · subst hst
        cases write with
        | createError => simp [processWord, audioStageOk]
        | copyError => simp [processWord, audioStageOk]
        | success => simp [processWord, audioStageOk]
      · cases write with
        | createError => simp [processWord, audioStageOk, hst]
        | copyError => simp [processWord, audioStageOk, hst]
        | success => simp [processWord, audioStageOk, hst]

/-- A word whose translation stage or synthesis stage fails emits no row. -/
theorem processWord_failed_no_emit (word defn : String) (w : WordWorld)
    (hfail : translationFailed w = true ∨ synthesisFailed w = true) :
    ∀ row : OutputRow, Event.emitRow row ∉ (processWord word defn w).1 := by
  intro row hmem
  obtain ⟨t, st, sy⟩ := w
  cases t with
  | transportError => simp [processWord] at hmem
  | readError => simp [processWord] at hmem
  | response s b =>
    cases b with
    | malformed => simp [processWord] at hmem
    | parsed r =>
      rw [emit_mem_processWord word defn s r _ rfl] at hmem
      obtain ⟨hok, -⟩ := hmem
      rcases hfail with h | h
      · simp [translationFailed] at h
      · cases st with
        | statFound => simp [synthesisFailed] at h
        | statOtherError => simp [synthesisFailed] at h
        | statNotExist =>
          cases sy with
          | marshalError => simp [audioStageOk] at hok
          | newRequestError => simp [audioStageOk] at hok
          | doError => simp [audioStageOk] at hok
          | httpResponse status write =>
            cases write with
            | createError => simp [audioStageOk] at hok
            | copyError => simp [audioStageOk] at hok
            | success =>
              simp [audioStageOk] at hok
              subst hok
              simp [synthesisFailed] at h

/-- The rows one entry emits, in closed form: one row exactly when the row
has two cells, the body parsed and the audio stage completed. -/
theorem rowsOf_eq (cells : List String) (w : WordWorld) :
    rowsOf cells w =
      match cells with
      | c0 :: c1 :: _ =>
        match w.transl with
        | .response _ (.parsed r) =>
          if audioStageOk w then [⟨c0, c1, soundField c0, extractTranslation r⟩]
          else []
        | _ => []
      | _ => [] := by
  obtain ⟨t, st, sy⟩ := w
  match cells with
  | [] => rfl
  | [c0] => rfl
  | c0 :: c1 :: rest =>
    cases t with
    | transportError => rfl
    | readError => rfl
    | response s b =>
      cases b with
      | malformed => rfl
      | parsed r =>
        cases st with
        | statFound => rfl
        | statOtherError => rfl
        | statNotExist =>
          cases sy with
          | marshalError => rfl
          | newRequestError => rfl
          | doError => rfl
          | httpResponse status write =>
            by_cases hst : status = 200
            · subst hst
              cases write with
              | createError => rfl
              | copyError => rfl
              | success => rfl
            · simp [rowsOf, processRow, processWord, audioStageOk, hst, emitOf]
              cases write <;> simp [hst]

/-- C2: for a word whose audio file already exists in the store before the
word is processed — so `os.Stat` on it does not report not-exist — the
pipeline never sends a synthesis request for that word.  The model carries
no file content, so a zero-byte or corrupt file counts the same. -/
theorem claim_C2_cached_never_synthesizes (word defn : String)
    (store : List String) (w : WordWorld)
    (hex : audioPath word ∈ store)
    (hstat : audioPath word ∈ store → w.stat ≠ .statNotExist) :
    ∀ u : String, Event.synthesisRequest u ∉ (processWord word defn w).1 := by
  have hne := hstat hex
  obtain ⟨t, st, sy⟩ := w
  simp only at hne
  intro u
  cases t with
  | transportError => simp [processWord]
  | readError => simp [processWord]
  | response s b =>
    cases b with
    | malformed => simp [processWord]
    | parsed r =>
      cases st with
      | statFound => simp [processWord]
      | statOtherError => simp [processWord]
      | statNotExist => exact absurd rfl hne

/-- C2 witness: a concrete cached word for which the theorem applies. -/
theorem claim_C2_witness :
    audioPath "hello" ∈ [audioPath "hello"] ∧
    Event.synthesisRequest "hello" ∉ (processWord "hello" "a greeting" wOk).1 :=
  ⟨List.mem_singleton.mpr rfl,
   claim_C2_cached_never_synthesizes "hello" "a greeting" [audioPath "hello"] wOk
     (List.mem_singleton.mpr rfl) (fun _ => by decide) "hello"⟩

/-- C3 counterexample: the dictionary responds with the non-success
status 403 but a body that parses; the word is not skipped — the pipeline
sends a synthesis request and emits a row for it. -/
theorem claim_C3_counterexample :
    403 ≠ 200 ∧
    Event.synthesisRequest "hello" ∈ (processWord "hello" "a greeting" wBadStatus).1 ∧
    Event.emitRow ⟨"hello", "a greeting", soundField "hello", ""⟩ ∈
      (processWord "hello" "a greeting" wBadStatus).1 := by
  refine ⟨by decide, ?_, ?_⟩ <;>
    simp [processWord, wBadStatus, dicEmpty, extractTranslation]

/-- C3 amended: a malformed (unparsable) body — like a transport or read
failure — makes the translation stage fail and the word is skipped with no
row and no synthesis call; the HTTP status of the dictionary response is
never examined, so a non-success status alone does not cause a skip. -/
theorem claim_C3_amended_malformed_skips (word defn : String) (w : WordWorld)
    (h : translationFailed w = true) :
    processWord word defn w = ([.translationRequest word], []) := by
  obtain ⟨t, st, sy⟩ := w
  cases t with
  | transportError => rfl
  | readError => rfl
  | response s b =>
    cases b with
    | malformed => rfl
    | parsed r => simp [translationFailed] at h

/-- C3 amended witness: a concrete malformed response is skipped. -/
theorem claim_C3_amended_witness :
    translationFailed wMalformed = true ∧
    processWord "hello" "a greeting" wMalformed =
      ([.translationRequest "hello"], []) :=
  ⟨rfl, claim_C3_amended_malformed_skips "hello" "a greeting" wMalformed rfl⟩

/-- C7: for a parsed dictionary response, every emitted row carries the
extracted translation; that value is the text of the first translation of
the first definition when both exist, and the empty string when the
response has no definitions. -/
theorem claim_C7_first_translation_text (word defn : String) (s : Nat)
    (r : DicResult) (w : WordWorld)
    (ht : w.transl = .response s (.parsed r)) :
    (∀ row : OutputRow, Event.emitRow row ∈ (processWord word defn w).1 →
        row.translation = extractTranslation r) ∧
    (∀ (d : Definition) (l : List Definition) (t : Translation)
        (m : List Translation), r.Def = d :: l → d.Tr = t :: m →
        extractTranslation r = t.Text) ∧
    (r.Def = [] → extractTranslation r = "") := by
  refine ⟨?_, ?_, ?_⟩
  · intro row hmem
    rw [emit_mem_processWord word defn s r w ht] at hmem
    rw [hmem.2]
  · intro d l t m hd htr
    simp [extractTranslation, hd, htr]
  · intro hd
    simp [extractTranslation, hd]

/-- C7 witness: a concrete one-definition response whose first translation
text is the emitted translation. -/
theorem claim_C7_witness :
    (wordWorldOf dicHello).transl = .response 200 (.parsed dicHello) ∧
    extractTranslation dicHello = "привет" :=
  ⟨rfl,
   (claim_C7_first_translation_text "hello" "a greeting" 200 dicHello
      (wordWorldOf dicHello) rfl).2.1 _ [] _ [] rfl rfl⟩

/-- C9: every row emitted for a successfully processed entry is built as
the entry word, the gloss passed through unchanged, the sound reference of
literal form [sound:<word>.mp3], and the looked-up translation. -/
theorem claim_C9_row_construction (word defn : String) (s : Nat)
    (r : DicResult) (w : WordWorld)
    (ht : w.transl = .response s (.parsed r)) :
    ∀ row : OutputRow, Event.emitRow row ∈ (processWord word defn w).1 →
      row.word = word ∧ row.exampleSentence = defn ∧
      row.soundReference = "[sound:" ++ word ++ ".mp3" ++ "]" ∧
      row.translation = extractTranslation r := by
  intro row hmem
  rw [emit_mem_processWord word defn s r w ht] at hmem
  rw [hmem.2]
  refine ⟨rfl, rfl, ?_, rfl⟩
  show soundField word = "[sound:" ++ word ++ ".mp3" ++ "]"
  apply String.ext
  simp [soundField, audioFilename, String.data_append]

/-- C9 witness: the concrete row emitted for the word hello. -/
theorem claim_C9_witness :
    Event.emitRow ⟨"hello", "a greeting", soundField "hello", ""⟩ ∈
      (processWord "hello" "a greeting" wSynth).1 ∧
    soundField "hello" = "[sound:" ++ "hello" ++ ".mp3" ++ "]" :=
  ⟨by simp [processWord, wSynth, dicEmpty, extractTranslation],
   (claim_C9_row_construction "hello" "a greeting" 200 dicEmpty wSynth rfl
      ⟨"hello", "a greeting", soundField "hello", ""⟩
      (by simp [processWord, wSynth, dicEmpty, extractTranslation])).2.2.1⟩

/-- C10: if the existence check fails with an error other than not-exist,
the word is treated as a cache hit: the only events are the translation
request and the emitted row — no synthesis request, no skip — and nothing
is written to the audio store. -/
theorem claim_C10_stat_error_treated_as_hit (word defn : String) (s : Nat)
    (r : DicResult) (w : WordWorld)
    (ht : w.transl = .response s (.parsed r))
    (hs : w.stat = .statOtherError) :
    processWord word defn w =
      ([.translationRequest word,
        .emitRow ⟨word, defn, soundField word, extractTranslation r⟩], []) := by
  obtain ⟨t, st, sy⟩ := w
  simp only at ht hs
  subst ht
  subst hs
  rfl

/-- C10 witness: concrete stat failure still emits the row. -/
theorem claim_C10_witness :
    wStatErr.transl = .response 200 (.parsed dicEmpty) ∧
    wStatErr.stat = .statOtherError ∧
    processWord "hello" "a greeting" wStatErr =
      ([.translationRequest "hello",
        .emitRow ⟨"hello", "a greeting", soundField "hello",
          extractTranslation dicEmpty⟩], []) :=
  ⟨rfl, rfl,
   claim_C10_stat_error_treated_as_hit "hello" "a greeting" 200 dicEmpty
     wStatErr rfl rfl⟩

/-- C1: a per-word failure is isolated — the events of the run decompose
as the events of the preceding entries, then the events of the failing
entry, which contain no emitted row, then the events of the following
entries, each entry contributing independently of the others. -/
theorem claim_C1_failure_isolation (pre post : List (List String × WordWorld))
    (word defn : String) (rest : List String) (w : WordWorld)
    (hfail : translationFailed w = true ∨ synthesisFailed w = true) :
    (runPipeline (pre ++ (word :: defn :: rest, w) :: post)).1 =
      (runPipeline pre).1 ++ (processRow (word :: defn :: rest) w).1 ++
        (runPipeline post).1 ∧
    ∀ row : OutputRow,
      Event.emitRow row ∉ (processRow (word :: defn :: rest) w).1 := by
  constructor
  · rw [runPipeline_append]
    simp [runPipeline, List.append_assoc]
  · intro row
    exact processWord_failed_no_emit word defn w hfail row

/-- C1 witness: a concrete three-entry run where the middle word fails. -/
theorem claim_C1_witness :
    (translationFailed wFailT = true ∨ synthesisFailed wFailT = true) ∧
    (runPipeline ([(["a", "g1"], wOk)] ++
        (["w", "g2"], wFailT) :: [(["c", "g3"], wOk)])).1 =
      (runPipeline [(["a", "g1"], wOk)]).1 ++ (processRow ["w", "g2"] wFailT).1 ++
        (runPipeline [(["c", "g3"], wOk)]).1 ∧
    Event.emitRow ⟨"w", "g2", soundField "w", ""⟩ ∉
      (processRow ["w", "g2"] wFailT).1 := by
  have h := claim_C1_failure_isolation [(["a", "g1"], wOk)] [(["c", "g3"], wOk)]
    "w" "g2" [] wFailT (Or.inl rfl)
  exact ⟨Or.inl rfl, h.1, h.2 _⟩

/-- C4: a well-formed response with zero definitions, or whose first
definition has zero translations, extracts the empty translation; the row
is still emitted with translation equal to the empty string whenever the
audio stage completes, and the audio stage — which synthesis requests are
sent and which paths are written — does not depend on the parsed body at
all. -/
theorem claim_C4_empty_translation_not_skip (word defn : String) (s : Nat)
    (r : DicResult) (w : WordWorld)
    (ht : w.transl = .response s (.parsed r))
    (hd : r.Def = [] ∨ ∃ d l, r.Def = d :: l ∧ d.Tr = []) :
    extractTranslation r = "" ∧
    (audioStageOk w = true →
      Event.emitRow ⟨word, defn, soundField word, ""⟩ ∈
        (processWord word defn w).1) ∧
    (∀ (s' : Nat) (r' : DicResult),
      (processWord word defn ⟨.response s' (.parsed r'), w.stat, w.synth⟩).1.filter
          isSynthRequest =
        (processWord word defn w).1.filter isSynthRequest ∧
      (processWord word defn ⟨.response s' (.parsed r'), w.stat, w.synth⟩).2 =
        (processWord word defn w).2) := by
  have hempty : extractTranslation r = "" := by
    rcases hd with hd | ⟨d, l, hd, htr⟩
    · simp [extractTranslation, hd]
    · simp [extractTranslation, hd, htr]
  refine ⟨hempty, ?_, ?_⟩
  · intro hok
    rw [emit_mem_processWord word defn s r w ht]
    exact ⟨hok, by rw [hempty]⟩
  · intro s' r'
    obtain ⟨t, st, sy⟩ := w
    simp only at ht
    subst ht
    cases st with
    | statFound => exact ⟨rfl, rfl⟩
    | statOtherError => exact ⟨rfl, rfl⟩
    | statNotExist =>
      cases sy with
      | marshalError => exact ⟨rfl, rfl⟩
      | newRequestError => exact ⟨rfl, rfl⟩
      | doError => exact ⟨rfl, rfl⟩
      | httpResponse status write =>
        by_cases hst : status = 200
        · subst hst
          cases write with
          | createError => exact ⟨rfl, rfl⟩
          | copyError => exact ⟨rfl, rfl⟩
          | success => exact ⟨rfl, rfl⟩
        · constructor <;> simp [processWord, hst]

/-- C4 witness: the empty-definitions response still emits a row with the
empty translation in a world where synthesis succeeds. -/
theorem claim_C4_witness :
    wSynth.transl = .response 200 (.parsed dicEmpty) ∧
    dicEmpty.Def = [] ∧
    audioStageOk wSynth = true ∧
    Event.emitRow ⟨"hello", "a greeting", soundField "hello", ""⟩ ∈
      (processWord "hello" "a greeting" wSynth).1 :=
  ⟨rfl, rfl, rfl,
   (claim_C4_empty_translation_not_skip "hello" "a greeting" 200 dicEmpty wSynth
      rfl (Or.inl rfl)).2.1 rfl⟩

/-- C6: the rows emitted by a run are exactly the concatenation, in input
order, of the rows of each entry; each entry emits at most one row, and a
failing entry emits none — so the output is the input order with the
skipped words removed, never reordered or duplicated. -/
theorem claim_C6_order_preservation (entries : List (List String × WordWorld)) :
    emittedRows entries = entries.flatMap (fun e => rowsOf e.1 e.2) ∧
    (∀ (cells : List String) (w : WordWorld), (rowsOf cells w).length ≤ 1) ∧
    (∀ (cells : List String) (w : WordWorld),
      translationFailed w = true ∨ synthesisFailed w = true →
        rowsOf cells w = []) := by
  refine ⟨?_, ?_, ?_⟩
  · induction entries with
    | nil => rfl
    | cons e rest ih =>
      obtain ⟨cells, w⟩ := e
      show ((processRow cells w).1 ++ (runPipeline rest).1).filterMap emitOf = _
      rw [List.filterMap_append, List.flatMap_cons]
      exact congrArg (rowsOf cells w ++ ·) ih
  · intro cells w
    rw [rowsOf_eq]
    rcases cells with _ | ⟨c0, _ | ⟨c1, rest⟩⟩
    · simp
    · simp
    · obtain ⟨t, st, sy⟩ := w
      cases t with
      | transportError => simp
      | readError => simp
      | response s b =>
        cases b with
        | malformed => simp
        | parsed r =>
          by_cases hok : audioStageOk ⟨.response s (.parsed r), st, sy⟩ <;>
            simp [hok]
  · intro cells w hfail
    rcases cells with _ | ⟨c0, _ | ⟨c1, rest⟩⟩
    · rfl
    · rfl
    · have hne := processWord_failed_no_emit c0 c1 w hfail
      show ((processWord c0 c1 w).1.filterMap emitOf) = []
      rw [List.filterMap_eq_nil_iff]
      intro e he
      cases e with
      | translationRequest u => rfl
      | synthesisRequest u => rfl
      | emitRow row => exact absurd he (hne row)

/-- C6 witness: a concrete three-entry run, the middle entry failing. -/
theorem claim_C6_witness :
    emittedRows [(["a", "g1"], wOk), (["w", "g2"], wFailT), (["c", "g3"], wOk)] =
      [(["a", "g1"], wOk), (["w", "g2"], wFailT), (["c", "g3"], wOk)].flatMap
        (fun e => rowsOf e.1 e.2) ∧
    (rowsOf ["a", "g1"] wOk).length ≤ 1 ∧
    rowsOf ["w", "g2"] wFailT = [] := by
  have h := claim_C6_order_preservation
    [(["a", "g1"], wOk), (["w", "g2"], wFailT), (["c", "g3"], wOk)]
  exact ⟨h.1, h.2.1 _ _, h.2.2 _ _ (Or.inl rfl)⟩

/-- C8 counterexample: a row with two empty cells has zero non-empty
cells, yet the pipeline processes it — it sends a translation request for
the empty word and even emits a row for it. -/
theorem claim_C8_counterexample :
    specNonEmptyCells ["", ""] = 0 ∧
    Event.translationRequest "" ∈ (processRow ["", ""] wOk).1 ∧
    Event.emitRow ⟨"", "", soundField "", ""⟩ ∈ (processRow ["", ""] wOk).1 := by
  refine ⟨rfl, ?_, ?_⟩ <;>
    simp [processRow, processWord, wOk, dicEmpty, extractTranslation]

/-- C8 amended: a row is processed exactly when it has at least two cells,
regardless of whether the cells are empty; a row with fewer than two cells
produces no events and no writes. -/
theorem claim_C8_amended_cell_count (cells : List String) (w : WordWorld) :
    ((processRow cells w).1 ≠ [] ↔ 2 ≤ cells.length) ∧
    (cells.length < 2 → processRow cells w = ([], [])) := by
  rcases cells with _ | ⟨c0, _ | ⟨c1, rest⟩⟩
  · exact ⟨by simp [processRow], fun _ => rfl⟩
  · exact ⟨by simp [processRow], fun _ => rfl⟩
  · constructor
    · constructor
      · intro _
        simp only [List.length_cons]
        omega
      · intro _
        obtain ⟨tail, htail⟩ := processWord_events_head c0 c1 w
        show (processWord c0 c1 w).1 ≠ []
        rw [htail]
        simp
    · intro hlt
      simp only [List.length_cons] at hlt
      omega

/-- C8 amended witness: a two-cell row is processed, a one-cell row is
not. -/
theorem claim_C8_amended_witness :
    ((processRow ["hello", "a greeting"] wOk).1 ≠ [] ↔
      2 ≤ (["hello", "a greeting"] : List String).length) ∧
    processRow ["lonely"] wOk = ([], []) := by
  have h := claim_C8_amended_cell_count ["hello", "a greeting"] wOk
  have h2 := claim_C8_amended_cell_count ["lonely"] wOk
  exact ⟨h.1, h2.2 (by decide)⟩

/-- C5 counterexample: with an empty audio store and the existence check
failing with a non-not-exist error, a row is emitted although its sound
file is not in the store at emission. -/
theorem claim_C5_counterexample :
    emittedRows [(["w", "g"], wStatErr)] = [⟨"w", "g", soundField "w", ""⟩] ∧
    rowsHaveFiles [] [(["w", "g"], wStatErr)] = false :=
  ⟨rfl, rfl⟩

/-- If the stat answer for this entry is accurate — a found answer means
the path is in the store, and no other-error occurs — then every event of
the entry is compatible with the store extended by what the entry
writes. -/
theorem processRow_files_ok (cells : List String) (w : WordWorld)
    (store : List String)
    (hacc : match cells with
            | c0 :: _ :: _ => (w.stat = .statFound → audioPath c0 ∈ store) ∧
                w.stat ≠ .statOtherError
            | _ => True) :
    (processRow cells w).1.all
      (eventFileOk (store ++ (processRow cells w).2)) = true := by
  rcases cells with _ | ⟨c0, _ | ⟨c1, rest⟩⟩
  · rfl
  · rfl
  · obtain ⟨hfound, hother⟩ := hacc
    obtain ⟨t, st, sy⟩ := w
    simp only at hfound hother
    show (processWord c0 c1 ⟨t, st, sy⟩).1.all _ = true
    cases t with
    | transportError => rfl
    | readError => rfl
    | response s b =>
      cases b with
      | malformed => rfl
      | parsed r =>
        cases st with
        | statOtherError => exact absurd rfl hother
        | statFound =>
          have hmem : audioPath c0 ∈ store := hfound rfl
          simp [processRow, processWord, eventFileOk, hmem]
        | statNotExist =>
          cases sy with
          | marshalError => rfl
          | newRequestError => rfl
          | doError => rfl
          | httpResponse status write =>
            by_cases hst : status = 200
            · subst hst
              cases write with
              | createError => rfl
              | copyError => rfl
              | success => simp [processRow, processWord, eventFileOk]
            · simp [processRow, processWord, eventFileOk, hst]

/-- C5 amended: provided the existence check is accurate — a found answer
means the file is really present and the check never fails with an error
other than not-exist — every row emitted during the run names an audio
path present in the store at the moment the row is emitted. -/
theorem claim_C5_amended_rows_have_files (store : List String)
    (entries : List (List String × WordWorld))
    (hacc : statAccurate store entries = true) :
    rowsHaveFiles store entries = true := by
  induction entries generalizing store with
  | nil => rfl
  | cons e rest ih =>
    obtain ⟨cells, w⟩ := e
    rcases cells with _ | ⟨c0, _ | ⟨c1, rest'⟩⟩
    · simp only [statAccurate, Bool.true_and] at hacc
      simp only [rowsHaveFiles, Bool.and_eq_true]
      exact ⟨rfl, ih _ hacc⟩
    · simp only [statAccurate, Bool.true_and] at hacc
      simp only [rowsHaveFiles, Bool.and_eq_true]
      exact ⟨rfl, ih _ hacc⟩
    · simp only [statAccurate, Bool.and_eq_true] at hacc
      obtain ⟨h1, h2⟩ := hacc
      simp only [rowsHaveFiles, Bool.and_eq_true]
      exact ⟨processRow_files_ok _ _ _ (of_decide_eq_true h1), ih _ h2⟩

/-- C5 amended witness: a run with one cached word and one freshly
synthesized word. -/
theorem claim_C5_amended_witness :
    statAccurate [audioPath "a"] [(["a", "g1"], wOk), (["b", "g2"], wSynth)] = true ∧
    rowsHaveFiles [audioPath "a"] [(["a", "g1"], wOk), (["b", "g2"], wSynth)] = true :=
  ⟨by decide, claim_C5_amended_rows_have_files _ _ (by decide)⟩

end SimplyLingo
